import Mathlib

/-!
Shallow embedding of the configuration-resolution pipeline of `src/main.rs`
(the `trustee` binary).  Pure Rust functions become Lean functions; the
process environment (argv, `HOME`, the filesystem, the external
`getmyconfig` storage client and the external TOML parse/serialize library)
is passed explicitly as a record of oracles, so that `main` becomes a pure
function from an environment to an outcome.

Rust `HashMap<String, String>` is modelled extensionally as
`String → Option String`.  The Rust string primitives (`lines`, `trim`,
`split_once`, `trim_matches`, `starts_with`) are re-implemented here by
structural recursion on the character list, so that every definition is
kernel-evaluable on concrete input.  (Rust `trim` removes Unicode
whitespace, the model removes the four ASCII whitespace characters — the
difference is irrelevant to the claims, which only involve ASCII input.)
-/

/-- Split a character list at every occurrence of `c` (the semantics of
Rust `str::lines` for `c = '\n'`, before the trailing-empty-line fixup;
a trailing empty piece is harmless downstream because blank lines are
ignored, and a stray `'\r'` is removed by `trim`). -/
def splitChar (c : Char) : List Char → List (List Char)
  | [] => [[]]
  | x :: xs =>
    if x == c then [] :: splitChar c xs
    else
      match splitChar c xs with
      | [] => [[x]]
      | l :: ls => (x :: l) :: ls

/-- Rust `str::split_once(c)` on a character list: split at the first
occurrence of `c`, or `none` when `c` does not occur. -/
def splitOnceList (c : Char) : List Char → Option (List Char × List Char)
  | [] => none
  | x :: xs =>
    if x == c then some ([], xs)
    else (splitOnceList c xs).map (fun p => (x :: p.1, p.2))

/-- Rust `str::trim` (ASCII whitespace). -/
def trimList (l : List Char) : List Char :=
  ((l.dropWhile Char.isWhitespace).reverse.dropWhile Char.isWhitespace).reverse

/-- Rust `str::lines` composed with the per-line handling of the source:
split the text at newlines. -/
def strLines (s : String) : List String :=
  (splitChar '\n' s.toList).map String.mk

/-- Rust `str::trim` on a `String`. -/
def strTrim (s : String) : String :=
  String.mk (trimList s.toList)

/-- Rust `str::split_once('c')` on a `String`. -/
def splitOnce (s : String) (c : Char) : Option (String × String) :=
  (splitOnceList c s.toList).map (fun p => (String.mk p.1, String.mk p.2))

/-- Rust `str::trim_matches(c)`: repeatedly remove `c` from both ends. -/
def trimMatchesChar (s : String) (c : Char) : String :=
  String.mk (((s.toList.dropWhile (· == c)).reverse.dropWhile (· == c)).reverse)

/-- Rust `str::starts_with(p)` for a string pattern. -/
def strStartsWith (s p : String) : Bool :=
  p.toList.isPrefixOf s.toList

/-- Rust `str::starts_with(c)` for a single-character pattern. -/
def startsWithChar (s : String) (c : Char) : Bool :=
  match s.toList with
  | [] => false
  | x :: _ => x == c

/-- The value post-processing of `parse_env_content` (src/main.rs line 54):
`value.trim_matches('"').trim_matches('\'')`. -/
def stripQuotes (s : String) : String :=
  trimMatchesChar (trimMatchesChar s '"') '\''

/-- Rust `HashMap<String, String>`, modelled extensionally. -/
abbrev SecretMap := String → Option String

def emptySecrets : SecretMap := fun _ => none

/-- Rust `HashMap::insert`. -/
def insertSecret (k v : String) (m : SecretMap) : SecretMap :=
  fun q => if q = k then some v else m q

/-- Rust `base.extend(extra)`: entries of `extra` overwrite those of `base`. -/
def extendMap (base extra : SecretMap) : SecretMap :=
  fun q => match extra q with
  | some v => some v
  | none => base q

/-- Body of the `for line in content.lines()` loop of `parse_env_content`
(src/main.rs lines 41-57). -/
def processEnvLine (secrets : SecretMap) (rawLine : String) : SecretMap :=
  let line := strTrim rawLine
  if line = "" || startsWithChar line '#' then
    secrets
  else
    match splitOnce line '=' with
    | none => secrets
    | some kv => insertSecret (strTrim kv.1) (stripQuotes (strTrim kv.2)) secrets

/-- `parse_env_content` (src/main.rs lines 40-58): fold the loop body over
the lines of the input. -/
def parse_env_content (content : String) (secrets : SecretMap) : SecretMap :=
  (strLines content).foldl processEnvLine secrets

/-- Spec-side description of what one line contributes (spec §4.1): `none`
for ignored lines (trimmed-empty, `#`-comment, or no `=`), otherwise the
(trimmed key, trimmed-and-quote-stripped value) pair. -/
def lineEntry (rawLine : String) : Option (String × String) :=
  let line := strTrim rawLine
  if line = "" ∨ startsWithChar line '#' then none
  else
    match splitOnce line '=' with
    | none => none
    | some kv => some (strTrim kv.1, stripQuotes (strTrim kv.2))

/-!
### TOML documents and the figment merge

`merge_config` (src/main.rs lines 204-215) parses the embedded default and
the user override with the external TOML library, deep-merges them with
figment (`Figment::new().merge(default).merge(user)`), extracts a
`toml::Table` and serializes it.  The document model below covers the TOML
value shapes the merge distinguishes: tables (merged recursively when both
sides are tables) and everything else (replaced wholesale by the override —
strings, integers, booleans and arrays all behave alike; floats and
datetimes would behave exactly like `str` and are omitted).  Tables are
association lists; a parsed TOML table has no duplicate keys (`wfT`). -/

inductive TomlV : Type where
  | str (s : String)
  | int (n : Int)
  | boolV (b : Bool)
  | arr (xs : List TomlV)
  | table (t : List (String × TomlV))

/-- First-match key lookup in a TOML table. -/
def lookupT (t : List (String × TomlV)) (k : String) : Option TomlV :=
  match t with
  | [] => none
  | (k', v) :: rest => if k' = k then some v else lookupT rest k

/-- Is the value a table? -/
def isTable : TomlV → Bool
  | .table _ => true
  | _ => false

mutual
/-- Figment `merge` on two values: when both are dicts, coalesce
recursively; otherwise the override (second argument) wins. -/
def mergeToml : TomlV → TomlV → TomlV
  | .table d, .table o =>
    .table (mergeTablesGo d o ++ o.filter (fun p => (lookupT d p.1).isNone))
  | _, o => o

/-- The entries of the default table, with the value merged against the
override's entry of the same key when one exists. -/
def mergeTablesGo : List (String × TomlV) → List (String × TomlV) → List (String × TomlV)
  | [], _ => []
  | (k, dv) :: rest, o =>
    (k,
      match lookupT o k with
      | some ov => mergeToml dv ov
      | none => dv) :: mergeTablesGo rest o
end

/-- Figment deep merge of two tables: default entries (recursively merged
where the override also has the key) followed by override-only entries. -/
def mergeTables (d o : List (String × TomlV)) : List (String × TomlV) :=
  mergeTablesGo d o ++ o.filter (fun p => (lookupT d p.1).isNone)

mutual
/-- Well-formedness of a parsed TOML value: no duplicate keys in any
table, at any depth. -/
def wfV : TomlV → Bool
  | .table t => wfT t
  | .arr _ => true
  | _ => true

/-- Well-formedness of a parsed TOML table. -/
def wfT : List (String × TomlV) → Bool
  | [] => true
  | (k, v) :: rest => (lookupT rest k).isNone && wfV v && wfT rest
end

/-- The external TOML parse/serialize library (out of scope per spec §1),
as an oracle: `parse` returns `none` on a parse error. -/
structure TomlLib where
  parse : String → Option (List (String × TomlV))
  serialize : List (String × TomlV) → String

/-- `merge_config` (src/main.rs lines 204-215) with the embedded default
made an explicit argument: figment-merge the default document with the
user override, override wins; any parse failure surfaces as the wrapped
extraction error. -/
def merge_config (lib : TomlLib) (defaultCfg userCfg : String) : Except String String :=
  match lib.parse defaultCfg, lib.parse userCfg with
  | some d, some u => .ok (lib.serialize (mergeTables d u))
  | _, _ => .error "Failed to merge configuration"

/-!
### Remote storage (getmyconfig) boundary
-/

/-- `getmyconfig::StorageConfig` (the connection-parameter record). -/
structure StorageConfig where
  endpoint : String
  access_key : String
  secret_key : String
  bucket : String
  region : Option String
  encryption_key : String
deriving DecidableEq

/-- `secrets.get(k).filter(|s| !s.is_empty())`. -/
def getNonEmpty (m : SecretMap) (k : String) : Option String :=
  match m k with
  | some s => if s = "" then none else some s
  | none => none

/-- `build_storage_config` (src/main.rs lines 104-127). -/
def build_storage_config (secrets : SecretMap) : Option StorageConfig := do
  let endpoint ← getNonEmpty secrets "GETMYCONFIG_ENDPOINT"
  let access_key ← getNonEmpty secrets "GETMYCONFIG_ACCESS_KEY"
  let secret_key ← getNonEmpty secrets "GETMYCONFIG_SECRET_KEY"
  let bucket ← getNonEmpty secrets "GETMYCONFIG_BUCKET"
  let encryption_key ← getNonEmpty secrets "GETMYCONFIG_ENCRYPTION_KEY"
  let region := getNonEmpty secrets "GETMYCONFIG_REGION"
  let endpoint :=
    if strStartsWith endpoint "http://" || strStartsWith endpoint "https://" then endpoint
    else "https://" ++ endpoint
  some ⟨endpoint, access_key, secret_key, bucket, region, encryption_key⟩

/-- Outcome of one remote object retrieval (`reader.read_raw` followed by
`String::from_utf8`), at the external-SDK boundary: the fetch/decrypt can
fail, the fetched bytes can fail to decode as UTF-8, or a text payload is
obtained.  Byte contents only ever flow through the decode, so the oracle
exposes the decoded result directly. -/
inductive FetchResult where
  | fetchErr (e : String)
  | notUtf8 (e : String)
  | ok (s : String)
deriving DecidableEq

/-- The remote config object name (src/main.rs lines 145-149):
`GETMYCONFIG_CONFIG_FILE` if present and non-empty, else
`"trustee.toml.enc"`. -/
def remoteConfigFileName (local_secrets : SecretMap) : String :=
  match getNonEmpty local_secrets "GETMYCONFIG_CONFIG_FILE" with
  | some s => s
  | none => "trustee.toml.enc"

/-- The remote secrets object name (src/main.rs lines 151-156):
`GETMYCONFIG_ENV_FILE` if present and non-empty, else `".env.enc"`. -/
def remoteEnvFileName (local_secrets : SecretMap) : String :=
  match getNonEmpty local_secrets "GETMYCONFIG_ENV_FILE" with
  | some s => s
  | none => ".env.enc"

/-!
### The process environment
-/

/-- Everything `main` observes about the outside world: argv, `HOME`, the
filesystem (existence and contents, keyed by path rendered as a string),
the external storage client (`ConfigReader::new` and `read_raw`+decode, as
oracles), the external TOML library, and the text of the embedded default
config (`include_str!("../config/trustee_default.toml")` — that file is
compiled into the binary and is not part of the resolution logic). -/
structure Env where
  args : List String
  home : Option String
  fileExists : String → Bool
  readFile : String → Except String String
  newReader : StorageConfig → Except String Unit
  readRaw : String → FetchResult
  toml : TomlLib
  defaultConfig : String

/-- `PathBuf::join` for the relative components used by the source. -/
def pathJoin (a b : String) : String := a ++ "/" ++ b

/-- Body of the override-scanning loop of `get_config_paths`
(src/main.rs lines 73-87), acting on the
`(config_filename, env_filename)` accumulator. -/
def overrideStep (acc : String × String) (rawLine : String) : String × String :=
  let line := strTrim rawLine
  if startsWithChar line '#' || line = "" then acc
  else
    match splitOnce line '=' with
    | none => acc
    | some kv =>
      let key := strTrim kv.1
      let value := stripQuotes (strTrim kv.2)
      if key = "TRUSTEE_CONFIG_FILE" then (value, acc.2)
      else if key = "TRUSTEE_ENV_FILE" then (acc.1, value)
      else acc

/-- `get_config_paths` (src/main.rs lines 62-100).  Returns
`(config_path, env_path, config_filename, env_filename)`. -/
def get_config_paths (env : Env) (agent_name : String) : String × String × String × String :=
  let home := env.home.getD "."
  let share_dir := pathJoin home ("." ++ agent_name)
  let local_env_path := pathJoin share_dir ".env"
  let acc0 : String × String := (agent_name ++ ".toml", "")
  let acc :=
    if env.fileExists local_env_path then
      match env.readFile local_env_path with
      | .ok content => (strLines content).foldl overrideStep acc0
      | .error _ => acc0
    else acc0
  let config_filename := acc.1
  let env_filename := if acc.2 = "" then ".env" else acc.2
  (pathJoin (pathJoin share_dir "config") config_filename,
   pathJoin share_dir env_filename, config_filename, env_filename)

/-- `load_env_file` (src/main.rs lines 26-37): empty map when the file
does not exist, parse when readable, propagate a read error otherwise. -/
def load_env_file (env : Env) (path : String) : Except String SecretMap :=
  if env.fileExists path then
    match env.readFile path with
    | .ok content => .ok (parse_env_content content emptySecrets)
    | .error e => .error e
  else .ok emptySecrets

/-- `load_remote_config` (src/main.rs lines 131-200): `none` when the
connection parameters are incomplete, the client cannot be constructed, or
either object fails to fetch or decode; otherwise the remote config text
paired with the parsed remote secrets. -/
def load_remote_config (env : Env) (local_secrets : SecretMap) :
    Option (String × SecretMap) :=
  match build_storage_config local_secrets with
  | none => none
  | some storage_config =>
    match env.newReader storage_config with
    | .error _ => none
    | .ok _ =>
      match env.readRaw (remoteConfigFileName local_secrets) with
      | .fetchErr _ => none
      | .notUtf8 _ => none
      | .ok config_toml =>
        match env.readRaw (remoteEnvFileName local_secrets) with
        | .fetchErr _ => none
        | .notUtf8 _ => none
        | .ok content => some (config_toml, parse_env_content content emptySecrets)

/-!
### The orchestrator
-/

/-- Result of the standard-mode resolution chain, before the final merge:
fatal exit, a propagated error, or the chosen (user config text, secrets)
pair. -/
inductive Resolved where
  | exit1
  | err (e : String)
  | resolved (user_config : String) (secrets : SecretMap)

/-- What the process does: terminate with an exit code, return an error
from `main`, or hand the merged config and the secret map to
`abk::cli::run_from_raw_config`. -/
inductive Outcome where
  | exitCode (n : Nat)
  | err (e : String)
  | run (config : String) (secrets : SecretMap)

/-- The standard-mode (non-init) resolution chain of `main`
(src/main.rs lines 236-273), up to but excluding the final
`merge_config`. -/
def standard_resolution (env : Env) : Resolved :=
  let paths := get_config_paths env "trustee"
  let config_path := paths.1
  let secrets_path := paths.2.1
  if !env.fileExists config_path && !env.fileExists secrets_path then
    .exit1
  else
    match load_env_file env secrets_path with
    | .error e => .err ("Failed to read secrets from " ++ secrets_path ++ ": " ++ e)
    | .ok local_secrets =>
      match load_remote_config env local_secrets with
      | some (remote_config, remote_secrets) =>
        .resolved remote_config (extendMap local_secrets remote_secrets)
      | none =>
        if !env.fileExists config_path then .exit1
        else
          match env.readFile config_path with
          | .error e => .err ("Failed to read config from " ++ config_path ++ ": " ++ e)
          | .ok config_toml => .resolved config_toml local_secrets

/-- `main` (src/main.rs lines 218-281): the init branch reads the
project-relative `config/trustee.toml` (empty text when unreadable),
merges and runs with no secrets; the standard branch resolves, merges and
runs. -/
def mainRun (env : Env) : Outcome :=
  if env.args[1]? = some "init" then
    let project_config :=
      match env.readFile "config/trustee.toml" with
      | .ok s => s
      | .error _ => ""
    match merge_config env.toml env.defaultConfig project_config with
    | .error e => .err e
    | .ok merged => .run merged emptySecrets
  else
    match standard_resolution env with
    | .exit1 => .exitCode 1
    | .err e => .err e
    | .resolved user_config secrets =>
      match merge_config env.toml env.defaultConfig user_config with
      | .error e => .err e
      | .ok merged => .run merged secrets

/-!
### Concrete environments used by the witnesses and counterexamples
-/

/-- A trivial TOML library oracle for witnesses whose claims do not
inspect the merge result. -/
def tomlLibTrivial : TomlLib := ⟨fun _ => some [], fun _ => ""⟩

/-- Default-secrets content used in the C6 counterexample: the config
file name override is assigned the empty string. -/
def envC6 : Env where
  args := ["trustee", "run"]
  home := some "/h"
  fileExists := fun p => p = "/h/.trustee/.env"
  readFile := fun p =>
    if p = "/h/.trustee/.env" then .ok "TRUSTEE_CONFIG_FILE=" else .error "not found"
  newReader := fun _ => .ok ()
  readRaw := fun _ => .fetchErr "unconfigured"
  toml := tomlLibTrivial
  defaultConfig := ""

/-- Local `.env` contents of the remote-capable witness environment: all
five connection parameters, one local-only key and one key that the
remote secrets will shadow. -/
def localEnvContentW : String :=
  "GETMYCONFIG_ENDPOINT=s3.example.com\nGETMYCONFIG_ACCESS_KEY=ak\nGETMYCONFIG_SECRET_KEY=sk\nGETMYCONFIG_BUCKET=b\nGETMYCONFIG_ENCRYPTION_KEY=ek\nLOCAL_ONLY=loc\nSHARED=localv"

/-- Remote secrets text served by the remote-capable witness
environment. -/
def remoteEnvContentW : String := "API_KEY=abc\nSHARED=remotev"

/-- An environment in which both the remote pair and the local pair are
available and valid (used by the C1 witness). -/
def envBothW : Env where
  args := ["trustee", "run"]
  home := some "/h"
  fileExists := fun p => p = "/h/.trustee/.env" || p = "/h/.trustee/config/trustee.toml"
  readFile := fun p =>
    if p = "/h/.trustee/.env" then .ok localEnvContentW
    else if p = "/h/.trustee/config/trustee.toml" then .ok "localcfg"
    else .error "not found"
  newReader := fun _ => .ok ()
  readRaw := fun n =>
    if n = "trustee.toml.enc" then .ok "remotecfg"
    else if n = ".env.enc" then .ok remoteEnvContentW
    else .fetchErr "missing"
  toml := tomlLibTrivial
  defaultConfig := ""

/-- Like `envBothW` but the remote secrets object fails to fetch (used by
the C2 witness). -/
def envPartialW : Env where
  args := ["trustee", "run"]
  home := some "/h"
  fileExists := fun p => p = "/h/.trustee/.env" || p = "/h/.trustee/config/trustee.toml"
  readFile := fun p =>
    if p = "/h/.trustee/.env" then .ok localEnvContentW
    else if p = "/h/.trustee/config/trustee.toml" then .ok "localcfg"
    else .error "not found"
  newReader := fun _ => .ok ()
  readRaw := fun n =>
    if n = "trustee.toml.enc" then .ok "remotecfg"
    else .fetchErr "secrets object missing"
  toml := tomlLibTrivial
  defaultConfig := ""

/-- An environment with no local files at all (used by the C3 witness,
first fatal condition). -/
def envNothingW : Env where
  args := ["trustee", "run"]
  home := some "/h"
  fileExists := fun _ => false
  readFile := fun _ => .error "not found"
  newReader := fun _ => .ok ()
  readRaw := fun _ => .fetchErr "unconfigured"
  toml := tomlLibTrivial
  defaultConfig := ""

/-- An environment with a local secrets file but no config file and no
reachable remote (used by the C3 witness, second fatal condition). -/
def envSecretsOnlyW : Env where
  args := ["trustee", "run"]
  home := some "/h"
  fileExists := fun p => p = "/h/.trustee/.env"
  readFile := fun p =>
    if p = "/h/.trustee/.env" then .ok "SOME_KEY=v" else .error "not found"
  newReader := fun _ => .ok ()
  readRaw := fun _ => .fetchErr "unconfigured"
  toml := tomlLibTrivial
  defaultConfig := ""

/-- An init-mode environment with a readable project config (used by the
C9 witness). -/
def envInitW : Env where
  args := ["trustee", "init"]
  home := some "/h"
  fileExists := fun p => p = "config/trustee.toml"
  readFile := fun p =>
    if p = "config/trustee.toml" then .ok "projectcfg" else .error "not found"
  newReader := fun _ => .ok ()
  readRaw := fun _ => .fetchErr "unconfigured"
  toml := tomlLibTrivial
  defaultConfig := ""

/-- An environment with a local config file but no secrets file (used by
the C10 witness). -/
def envNoSecretsW : Env where
  args := ["trustee", "run"]
  home := some "/h"
  fileExists := fun p => p = "/h/.trustee/config/trustee.toml"
  readFile := fun p =>
    if p = "/h/.trustee/config/trustee.toml" then .ok "localcfg" else .error "not found"
  newReader := fun _ => .ok ()
  readRaw := fun _ => .fetchErr "unconfigured"
  toml := tomlLibTrivial
  defaultConfig := ""

/-- Default table used by the C7 witness: a scalar plus a nested table
with two fields. -/
def tomlDW : List (String × TomlV) :=
  [("name", .str "trustee"), ("svc", .table [("host", .str "h"), ("port", .int 80)])]

/-- The nested table inside `tomlDW`. -/
def tomlDTW : List (String × TomlV) :=
  [("host", .str "h"), ("port", .int 80)]

/-!
### EnvParser lemmas
-/

theorem processEnvLine_eq_lineEntry (m : SecretMap) (l : String) :
    processEnvLine m l =
      match lineEntry l with
      | none => m
      | some kv => insertSecret kv.1 kv.2 m := by
  unfold processEnvLine lineEntry
  by_cases h1 : strTrim l = ""
  · simp [h1]
  · by_cases h2 : startsWithChar (strTrim l) '#' = true
    · simp [h1, h2]
    · cases h3 : splitOnce (strTrim l) '=' <;>
        simp [h1, h2, h3]

theorem foldl_processEnvLine_eq (ls : List String) (m : SecretMap) :
    ls.foldl processEnvLine m
      = (ls.filterMap lineEntry).foldl (fun acc kv => insertSecret kv.1 kv.2 acc) m := by
  induction ls generalizing m with
  | nil => rfl
  | cons l rest ih =>
    rw [List.foldl_cons, List.filterMap_cons, processEnvLine_eq_lineEntry]
    cases h : lineEntry l <;> simp [h, ih]

/-- C8: EnvParser is total and best-effort: the parse is a total function
of the input text, a line whose trimmed form is empty, starts with `#`,
or has no `=` contributes nothing (its `lineEntry` is `none`), and the
resulting map is exactly the initial map extended by the entries of the
remaining `KEY=VALUE` lines, in order. -/
theorem c8_envparser_total_best_effort (content : String) (m : SecretMap) :
    parse_env_content content m
      = ((strLines content).filterMap lineEntry).foldl
          (fun acc kv => insertSecret kv.1 kv.2 acc) m
  ∧ ∀ l : String,
      (lineEntry l = none ↔
        (strTrim l = "" ∨ startsWithChar (strTrim l) '#' = true ∨
          splitOnce (strTrim l) '=' = none)) := by
  refine ⟨foldl_processEnvLine_eq _ m, fun l => ?_⟩
  unfold lineEntry
  by_cases h1 : strTrim l = "" <;> by_cases h2 : startsWithChar (strTrim l) '#' = true <;>
    cases h3 : splitOnce (strTrim l) '=' <;> simp [h1, h2, h3]

/-- C5 is false as stated: quote stripping is not limited to one matching
layer.  On the line `K=""x""` the value (one layer stripped) would be
`"x"`, but the code strips every leading and trailing quote character and
yields `x`; on the line `K2="x` there is no matching pair, yet the
unmatched quote is stripped as well. -/
theorem c5_counterexample :
    parse_env_content "K=\"\"x\"\"" emptySecrets "K" = some "x"
  ∧ parse_env_content "K=\"\"x\"\"" emptySecrets "K" ≠ some "\"x\""
  ∧ parse_env_content "K2=\"x" emptySecrets "K2" = some "x"
  ∧ parse_env_content "K2=\"x" emptySecrets "K2" ≠ some "\"x" := by decide

/-- C5 amended: for every non-ignored input line, EnvParser splits it at
the first `=` and trims both sides; the value then has all leading and
trailing double-quote characters removed, and afterwards all leading and
trailing single-quote characters removed, whether or not they form
matching pairs (so `"bar"` maps to `bar`, but nested or unmatched quotes
are stripped as well). -/
theorem c5_amended_quote_stripping (l k v : String) (m : SecretMap)
    (hns : startsWithChar (strTrim l) '#' = false)
    (hsplit : splitOnce (strTrim l) '=' = some (k, v)) :
    processEnvLine m l
      = insertSecret (strTrim k)
          (trimMatchesChar (trimMatchesChar (strTrim v) '"') '\'') m := by
  have hne : strTrim l ≠ "" := by
    intro h
    rw [h] at hsplit
    have : splitOnce "" '=' = none := by decide
    rw [this] at hsplit
    cases hsplit
  unfold processEnvLine
  simp [hne, hns, hsplit, stripQuotes]

theorem c5_amended_quote_stripping_witness :
    processEnvLine emptySecrets " FOO = \"bar\" "
      = insertSecret (strTrim "FOO ")
          (trimMatchesChar (trimMatchesChar (strTrim " \"bar\" ") '"') '\'') emptySecrets :=
  c5_amended_quote_stripping " FOO = \"bar\" " "FOO " " \"bar\"" emptySecrets
    (by decide) (by decide)

/-!
### RemoteConnectionParams extraction (C4)
-/

theorem getNonEmpty_eq_none (m : SecretMap) (k : String) :
    getNonEmpty m k = none ↔ (m k = none ∨ m k = some "") := by
  unfold getNonEmpty
  cases h : m k
  · simp
  · rename_i s
    by_cases hs : s = "" <;> simp [hs]

/-- C4: `build_storage_config` returns `none` exactly when one of the
five required keys is missing or empty; when all five are present and
non-empty it returns the record whose endpoint is prefixed with
`https://` unless it already starts with `http://` or `https://`, with
the optional region taken from `GETMYCONFIG_REGION` when present and
non-empty. -/
theorem c4_storage_config_required_keys (secrets : SecretMap) :
    (build_storage_config secrets = none ↔
      ∃ k ∈ ["GETMYCONFIG_ENDPOINT", "GETMYCONFIG_ACCESS_KEY", "GETMYCONFIG_SECRET_KEY",
             "GETMYCONFIG_BUCKET", "GETMYCONFIG_ENCRYPTION_KEY"],
        secrets k = none ∨ secrets k = some "")
  ∧ (∀ e a s b x,
      secrets "GETMYCONFIG_ENDPOINT" = some e → e ≠ "" →
      secrets "GETMYCONFIG_ACCESS_KEY" = some a → a ≠ "" →
      secrets "GETMYCONFIG_SECRET_KEY" = some s → s ≠ "" →
      secrets "GETMYCONFIG_BUCKET" = some b → b ≠ "" →
      secrets "GETMYCONFIG_ENCRYPTION_KEY" = some x → x ≠ "" →
      build_storage_config secrets =
        some ⟨if strStartsWith e "http://" || strStartsWith e "https://" then e
              else "https://" ++ e,
              a, s, b, getNonEmpty secrets "GETMYCONFIG_REGION", x⟩) := by
  constructor
  · rw [show (∃ k ∈ ["GETMYCONFIG_ENDPOINT", "GETMYCONFIG_ACCESS_KEY",
        "GETMYCONFIG_SECRET_KEY", "GETMYCONFIG_BUCKET", "GETMYCONFIG_ENCRYPTION_KEY"],
          secrets k = none ∨ secrets k = some "") ↔
        (getNonEmpty secrets "GETMYCONFIG_ENDPOINT" = none ∨
         getNonEmpty secrets "GETMYCONFIG_ACCESS_KEY" = none ∨
         getNonEmpty secrets "GETMYCONFIG_SECRET_KEY" = none ∨
         getNonEmpty secrets "GETMYCONFIG_BUCKET" = none ∨
         getNonEmpty secrets "GETMYCONFIG_ENCRYPTION_KEY" = none) from by
        simp [getNonEmpty_eq_none]]
    unfold build_storage_config
    cases hE : getNonEmpty secrets "GETMYCONFIG_ENDPOINT" <;>
      cases hA : getNonEmpty secrets "GETMYCONFIG_ACCESS_KEY" <;>
      cases hS : getNonEmpty secrets "GETMYCONFIG_SECRET_KEY" <;>
      cases hB : getNonEmpty secrets "GETMYCONFIG_BUCKET" <;>
      cases hX : getNonEmpty secrets "GETMYCONFIG_ENCRYPTION_KEY" <;>
      simp [hE, hA, hS, hB, hX]
  · intro e a s b x hE hEne hA hAne hS hSne hB hBne hX hXne
    have gE : getNonEmpty secrets "GETMYCONFIG_ENDPOINT" = some e := by
      unfold getNonEmpty; simp [hE, hEne]
    have gA : getNonEmpty secrets "GETMYCONFIG_ACCESS_KEY" = some a := by
      unfold getNonEmpty; simp [hA, hAne]
    have gS : getNonEmpty secrets "GETMYCONFIG_SECRET_KEY" = some s := by
      unfold getNonEmpty; simp [hS, hSne]
    have gB : getNonEmpty secrets "GETMYCONFIG_BUCKET" = some b := by
      unfold getNonEmpty; simp [hB, hBne]
    have gX : getNonEmpty secrets "GETMYCONFIG_ENCRYPTION_KEY" = some x := by
      unfold getNonEmpty; simp [hX, hXne]
    unfold build_storage_config
    simp [gE, gA, gS, gB, gX]

theorem c4_storage_config_required_keys_witness :
    build_storage_config (parse_env_content localEnvContentW emptySecrets) =
      some ⟨if strStartsWith "s3.example.com" "http://" ||
               strStartsWith "s3.example.com" "https://" then "s3.example.com"
            else "https://" ++ "s3.example.com",
            "ak", "sk", "b",
            getNonEmpty (parse_env_content localEnvContentW emptySecrets)
              "GETMYCONFIG_REGION", "ek"⟩ :=
  (c4_storage_config_required_keys (parse_env_content localEnvContentW emptySecrets)).2
    "s3.example.com" "ak" "sk" "b" "ek"
    (by decide) (by decide) (by decide) (by decide) (by decide)
    (by decide) (by decide) (by decide) (by decide) (by decide)

/-!
### ConfigMerger lemmas (C7)
-/

theorem lookupT_append (a b : List (String × TomlV)) (k : String) :
    lookupT (a ++ b) k =
      match lookupT a k with
      | some v => some v
      | none => lookupT b k := by
  induction a with
  | nil => simp [lookupT]
  | cons p rest ih =>
    by_cases h : p.1 = k <;> simp [lookupT, h, ih]

theorem lookupT_mergeTablesGo (d o : List (String × TomlV)) (k : String) :
    lookupT (mergeTablesGo d o) k =
      match lookupT d k with
      | some dv =>
        some (match lookupT o k with
              | some ov => mergeToml dv ov
              | none => dv)
      | none => none := by
  induction d with
  | nil => simp [mergeTablesGo, lookupT]
  | cons p rest ih =>
    by_cases h : p.1 = k <;> simp [mergeTablesGo, lookupT, h, ih]

theorem lookupT_filterNew (d o : List (String × TomlV)) (k : String) :
    lookupT (o.filter (fun p => (lookupT d p.1).isNone)) k =
      if (lookupT d k).isNone then lookupT o k else none := by
  induction o with
  | nil => simp [lookupT]
  | cons p rest ih =>
    by_cases hk : p.1 = k
    · subst hk
      by_cases hq : (lookupT d p.1).isNone <;> simp [List.filter, lookupT, hq, ih]
    · by_cases hq : (lookupT d p.1).isNone <;> simp [List.filter, lookupT, hq, hk, ih]

/-- Per-key characterization of the figment table merge: the override
value wins, except that two tables are merged recursively; default-only
keys survive. -/
theorem lookupT_mergeTables (d o : List (String × TomlV)) (k : String) :
    lookupT (mergeTables d o) k =
      match lookupT d k, lookupT o k with
      | some dv, some ov => some (mergeToml dv ov)
      | some dv, none => some dv
      | none, mo => mo := by
  unfold mergeTables
  rw [lookupT_append, lookupT_mergeTablesGo, lookupT_filterNew]
  cases hd : lookupT d k <;> cases ho : lookupT o k <;> simp [hd, ho]

theorem lookupT_isSome_of_mem (t : List (String × TomlV)) (p : String × TomlV)
    (h : p ∈ t) : (lookupT t p.1).isSome = true := by
  induction t with
  | nil => cases h
  | cons q rest ih =>
    rcases List.mem_cons.mp h with h | h
    · subst h; simp [lookupT]
    · by_cases hq : q.1 = p.1 <;> simp [lookupT, hq, ih h]

theorem filter_lookup_self (t : List (String × TomlV)) :
    t.filter (fun p => (lookupT t p.1).isNone) = [] := by
  rw [List.filter_eq_nil_iff]
  intro p hp
  have h := lookupT_isSome_of_mem t p hp
  cases hlt : lookupT t p.1 with
  | none => simp [hlt] at h
  | some v => simp [hlt]

mutual
theorem mergeToml_idem (v : TomlV) (h : wfV v = true) : mergeToml v v = v :=
  match v with
  | .str _ => by simp [mergeToml]
  | .int _ => by simp [mergeToml]
  | .boolV _ => by simp [mergeToml]
  | .arr _ => by simp [mergeToml]
  | .table t => by
    have ht : wfT t = true := by simpa [wfV] using h
    rw [show mergeToml (.table t) (.table t)
          = .table (mergeTablesGo t t ++ t.filter (fun p => (lookupT t p.1).isNone)) from by
        simp [mergeToml]]
    rw [mergeTablesGo_self t t ht (fun _ _ hk => hk), filter_lookup_self t]
    simp

theorem mergeTablesGo_self (d o : List (String × TomlV)) (hwf : wfT d = true)
    (h : ∀ k dv, lookupT d k = some dv → lookupT o k = some dv) :
    mergeTablesGo d o = d :=
  match d with
  | [] => by simp [mergeTablesGo]
  | (k, dv) :: rest => by
    have hk : lookupT ((k, dv) :: rest) k = some dv := by simp [lookupT]
    have hnone : (lookupT rest k).isNone = true := by
      have := hwf
      unfold wfT at this
      simp only [Bool.and_eq_true] at this
      exact this.1.1
    have hdv : wfV dv = true := by
      have := hwf
      unfold wfT at this
      simp only [Bool.and_eq_true] at this
      exact this.1.2
    have hrest : wfT rest = true := by
      have := hwf
      unfold wfT at this
      simp only [Bool.and_eq_true] at this
      exact this.2
    have ho : lookupT o k = some dv := h k dv hk
    have htail : ∀ k' dv', lookupT rest k' = some dv' → lookupT o k' = some dv' := by
      intro k' dv' hk'
      by_cases he : k = k'
      · subst he
        rw [Option.isNone_iff_eq_none.mp hnone] at hk'
        cases hk'
      · exact h k' dv' (by simp [lookupT, he, hk'])
    rw [show mergeTablesGo ((k, dv) :: rest) o
          = (k, match lookupT o k with
                | some ov => mergeToml dv ov
                | none => dv) :: mergeTablesGo rest o from by simp [mergeTablesGo]]
    rw [mergeTablesGo_self rest o hrest htail, ho]
    simp [mergeToml_idem dv hdv]
end

/-- A non-table override always replaces the default value wholesale. -/
theorem mergeToml_nonTable (dv ov : TomlV) (h : isTable ov = false) :
    mergeToml dv ov = ov := by
  cases dv <;> cases ov <;> simp [isTable] at * <;> simp [mergeToml]

theorem mergeTablesGo_disjoint : ∀ (d o : List (String × TomlV)),
    (∀ k, (lookupT d k).isSome = true → lookupT o k = none) →
    mergeTablesGo d o = d
  | [], _, _ => by simp [mergeTablesGo]
  | (k, dv) :: rest, o, h => by
    have ho : lookupT o k = none := h k (by simp [lookupT])
    have htail : ∀ k', (lookupT rest k').isSome = true → lookupT o k' = none := by
      intro k' hk'
      refine h k' ?_
      by_cases he : k = k'
      · simp [lookupT, he]
      · simp [lookupT, he, hk']
    rw [show mergeTablesGo ((k, dv) :: rest) o
          = (k, match lookupT o k with
                | some ov => mergeToml dv ov
                | none => dv) :: mergeTablesGo rest o from by simp [mergeTablesGo]]
    rw [ho, mergeTablesGo_disjoint rest o htail]

/-- C7: the figment deep merge is idempotent on any well-formed document
(`merge(D, D) = D`, exactly — a fortiori up to normalization); merging
key-disjoint tables yields their union; and an override that sets a
single nested leaf replaces only that leaf, preserving every sibling key
of the default's nested table and every other top-level key. -/
theorem c7_merge_algebra :
    (∀ v : TomlV, wfV v = true → mergeToml v v = v)
  ∧ (∀ d o : List (String × TomlV),
      (∀ k : String, ¬((lookupT d k).isSome = true ∧ (lookupT o k).isSome = true)) →
      mergeToml (.table d) (.table o) = .table (d ++ o))
  ∧ (∀ (d dt : List (String × TomlV)) (t p : String) (v : TomlV),
      lookupT d t = some (.table dt) → isTable v = false →
      (∀ r : String, r ≠ t →
        lookupT (mergeTables d [(t, .table [(p, v)])]) r = lookupT d r)
      ∧ ∃ mt, lookupT (mergeTables d [(t, .table [(p, v)])]) t = some (.table mt)
          ∧ lookupT mt p = some v
          ∧ ∀ q : String, q ≠ p → lookupT mt q = lookupT dt q) := by
  refine ⟨mergeToml_idem, fun d o hdisj => ?_, fun d dt t p v hd hv => ?_⟩
  · have hdo : ∀ k, (lookupT d k).isSome = true → lookupT o k = none := by
      intro k hk
      cases ho : lookupT o k
      · rfl
      · exact absurd ⟨hk, by simp [ho]⟩ (hdisj k)
    have hfil : o.filter (fun p => (lookupT d p.1).isNone) = o := by
      rw [List.filter_eq_self]
      intro p hp
      have hpo := lookupT_isSome_of_mem o p hp
      cases hdk : lookupT d p.1
      · simp
      · exact absurd ⟨by simp [hdk], hpo⟩ (hdisj p.1)
    rw [show mergeToml (.table d) (.table o)
          = .table (mergeTablesGo d o ++ o.filter (fun p => (lookupT d p.1).isNone)) from by
        simp [mergeToml]]
    rw [mergeTablesGo_disjoint d o hdo, hfil]
  · constructor
    · intro r hr
      have hnr : ¬(t = r) := fun h => hr h.symm
      have ho : lookupT [(t, TomlV.table [(p, v)])] r = none := by
        simp [lookupT, hnr]
      rw [lookupT_mergeTables, ho]
      cases lookupT d r <;> simp
    · refine ⟨mergeTables dt [(p, v)], ?_, ?_, ?_⟩
      · have ho : lookupT [(t, TomlV.table [(p, v)])] t = some (.table [(p, v)]) := by
          simp [lookupT]
        rw [lookupT_mergeTables, hd, ho]
        simp [mergeToml, mergeTables]
      · have ho : lookupT [(p, v)] p = some v := by simp [lookupT]
        rw [lookupT_mergeTables, ho]
        cases hdp : lookupT dt p <;> simp [mergeToml_nonTable _ v hv]
      · intro q hq
        have hnq : ¬(p = q) := fun h => hq h.symm
        have ho : lookupT [(p, v)] q = none := by simp [lookupT, hnq]
        rw [lookupT_mergeTables, ho]
        cases lookupT dt q <;> simp

theorem c7_merge_algebra_witness :
    mergeToml (.table tomlDW) (.table tomlDW) = .table tomlDW
  ∧ mergeToml (.table [("a", .str "1")]) (.table [("b", .int 2)])
      = .table ([("a", .str "1")] ++ [("b", .int 2)])
  ∧ ((∀ r : String, r ≠ "svc" →
        lookupT (mergeTables tomlDW [("svc", .table [("port", .int 99)])]) r
          = lookupT tomlDW r)
     ∧ ∃ mt, lookupT (mergeTables tomlDW [("svc", .table [("port", .int 99)])]) "svc"
            = some (.table mt)
        ∧ lookupT mt "port" = some (.int 99)
        ∧ ∀ q : String, q ≠ "port" → lookupT mt q = lookupT tomlDTW q) := by
  refine ⟨c7_merge_algebra.1 (.table tomlDW) (by simp [tomlDW, wfV, wfT, lookupT]),
          c7_merge_algebra.2.1 [("a", .str "1")] [("b", .int 2)] ?_,
          c7_merge_algebra.2.2 tomlDW tomlDTW "svc" "port" (.int 99)
            (by simp [tomlDW, tomlDTW, lookupT]) (by simp [isTable])⟩
  intro k hk
  rcases hk with ⟨h1, h2⟩
  by_cases ha : "a" = k
  · rw [← ha] at h2
    simp [lookupT] at h2
  · simp [lookupT, ha] at h1

/-!
### Orchestrator claims
-/

/-- C1: when the remote fetch succeeds (valid remote config/secrets pair)
and a valid local pair is also present, the resolution chooses the remote
config text, and the final secret map is the local map overlaid with the
remote map: every remote key carries its remote value (remote wins on
overlaps, `GETMYCONFIG_*` keys included) and every local-only key
survives with its local value. -/
theorem c1_remote_precedence (env : Env) (rc : String) (rs ls : SecretMap)
    (hcfg : env.fileExists (get_config_paths env "trustee").1 = true)
    (hsec : load_env_file env (get_config_paths env "trustee").2.1 = .ok ls)
    (hrem : load_remote_config env ls = some (rc, rs)) :
    standard_resolution env = .resolved rc (extendMap ls rs)
  ∧ (∀ k v, rs k = some v → extendMap ls rs k = some v)
  ∧ (∀ k, rs k = none → extendMap ls rs k = ls k) := by
  refine ⟨?_, fun k v h => by simp [extendMap, h], fun k h => by simp [extendMap, h]⟩
  unfold standard_resolution
  simp only [hcfg, hsec, hrem, Bool.not_true, Bool.false_and, Bool.and_self]
  rfl

theorem c1_remote_precedence_witness :
    standard_resolution envBothW
      = .resolved "remotecfg"
          (extendMap (parse_env_content localEnvContentW emptySecrets)
            (parse_env_content remoteEnvContentW emptySecrets)) :=
  (c1_remote_precedence envBothW "remotecfg"
    (parse_env_content remoteEnvContentW emptySecrets)
    (parse_env_content localEnvContentW emptySecrets)
    (by decide) rfl rfl).1

/-- C2: if the remote config object is fetched and decoded successfully
but the remote secrets object fails to fetch or to decode as UTF-8, the
whole remote attempt yields `none`; the orchestrator then falls back to
the local config file and the unmodified local secrets (a remote config
is never combined with a failed remote secrets fetch). -/
theorem c2_partial_remote_is_total_failure (env : Env) (ls : SecretMap) (cfgText : String)
    (hcfg : env.readRaw (remoteConfigFileName ls) = .ok cfgText)
    (henv : (∃ e, env.readRaw (remoteEnvFileName ls) = .fetchErr e) ∨
            (∃ e, env.readRaw (remoteEnvFileName ls) = .notUtf8 e)) :
    load_remote_config env ls = none
  ∧ (∀ cc, load_env_file env (get_config_paths env "trustee").2.1 = .ok ls →
      env.fileExists (get_config_paths env "trustee").1 = true →
      env.readFile (get_config_paths env "trustee").1 = .ok cc →
      standard_resolution env = .resolved cc ls) := by
  have hnone : load_remote_config env ls = none := by
    cases hb : build_storage_config ls with
    | none => simp [load_remote_config, hb]
    | some sc =>
      cases hr : env.newReader sc with
      | error e => simp [load_remote_config, hb, hr]
      | ok u =>
        rcases henv with ⟨e, he⟩ | ⟨e, he⟩ <;>
          simp [load_remote_config, hb, hr, hcfg, he]
  refine ⟨hnone, fun cc hsec hex hread => ?_⟩
  unfold standard_resolution
  simp only [hex, hsec, hnone, hread, Bool.not_true, Bool.false_and]
  rfl

theorem c2_partial_remote_is_total_failure_witness :
    load_remote_config envPartialW (parse_env_content localEnvContentW emptySecrets) = none
  ∧ standard_resolution envPartialW
      = .resolved "localcfg" (parse_env_content localEnvContentW emptySecrets) :=
  have h := c2_partial_remote_is_total_failure envPartialW
    (parse_env_content localEnvContentW emptySecrets) "remotecfg" rfl
    (Or.inl ⟨"secrets object missing", rfl⟩)
  ⟨h.1, h.2 "localcfg" rfl (by decide) rfl⟩

/-- C3: in standard (non-init) mode the process exits with code 1 and
never reaches the downstream runtime handoff in each of the two fatal
situations: (a) neither the resolved config path nor the resolved secrets
path exists; (b) the remote fetch is absent and the local config file
does not exist.  (The remediation message printed alongside is an
un-modelled side effect of the same branch.) -/
theorem c3_fatal_paths (env : Env) (hni : ¬env.args[1]? = some "init") :
    (env.fileExists (get_config_paths env "trustee").1 = false →
     env.fileExists (get_config_paths env "trustee").2.1 = false →
     mainRun env = .exitCode 1 ∧ ∀ c s, ¬mainRun env = .run c s)
  ∧ (∀ ls : SecretMap,
      load_env_file env (get_config_paths env "trustee").2.1 = .ok ls →
      load_remote_config env ls = none →
      env.fileExists (get_config_paths env "trustee").1 = false →
      mainRun env = .exitCode 1 ∧ ∀ c s, ¬mainRun env = .run c s) := by
  constructor
  · intro hc hs
    have hres : standard_resolution env = .exit1 := by
      unfold standard_resolution
      simp only [hc, hs, Bool.not_false, Bool.and_self]
      rfl
    have hmain : mainRun env = .exitCode 1 := by
      unfold mainRun
      simp only [hni, if_false, hres]
    exact ⟨hmain, fun c s h => by rw [hmain] at h; cases h⟩
  · intro ls hsec hrem hc
    have hres : standard_resolution env = .exit1 := by
      cases hs : env.fileExists (get_config_paths env "trustee").2.1 with
      | false =>
        unfold standard_resolution
        simp only [hc, hs, Bool.not_false, Bool.and_self]
        rfl
      | true =>
        unfold standard_resolution
        simp only [hc, hs, hsec, hrem, Bool.not_false, Bool.not_true, Bool.and_false]
        rfl
    have hmain : mainRun env = .exitCode 1 := by
      unfold mainRun
      simp only [hni, if_false, hres]
    exact ⟨hmain, fun c s h => by rw [hmain] at h; cases h⟩

theorem c3_fatal_paths_witness :
    mainRun envNothingW = .exitCode 1
  ∧ mainRun envSecretsOnlyW = .exitCode 1 :=
  ⟨((c3_fatal_paths envNothingW (by decide)).1 (by decide) (by decide)).1,
   ((c3_fatal_paths envSecretsOnlyW (by decide)).2
      (parse_env_content "SOME_KEY=v" emptySecrets) rfl rfl (by decide)).1⟩

/-- C9: in init mode the orchestrator reads the project-relative
`config/trustee.toml` (substituting empty text when it is unreadable),
merges it over the embedded default, and hands the runtime the merged
document together with an empty secret mapping. -/
theorem c9_init_mode (env : Env) (hinit : env.args[1]? = some "init") :
    (∀ pc merged, env.readFile "config/trustee.toml" = .ok pc →
      merge_config env.toml env.defaultConfig pc = .ok merged →
      mainRun env = .run merged emptySecrets)
  ∧ (∀ e merged, env.readFile "config/trustee.toml" = .error e →
      merge_config env.toml env.defaultConfig "" = .ok merged →
      mainRun env = .run merged emptySecrets) := by
  constructor
  · intro pc merged hread hmerge
    unfold mainRun
    simp only [hinit, if_true, hread, hmerge]
  · intro e merged hread hmerge
    unfold mainRun
    simp only [hinit, if_true, hread, hmerge]

theorem c9_init_mode_witness :
    mainRun envInitW = .run "" emptySecrets :=
  (c9_init_mode envInitW (by decide)).1 "projectcfg" "" rfl rfl

/-- C10: when the resolved secrets file does not exist but the config
file does, loading local secrets yields the empty map (not an error), the
remote path is skipped because no connection parameters exist, and the
resolution proceeds with the local config text and an empty final secret
mapping, which (in non-init mode) is handed to the runtime merged over
the defaults. -/
theorem c10_missing_secrets_empty_map (env : Env) (cc : String)
    (hsp : env.fileExists (get_config_paths env "trustee").2.1 = false)
    (hcp : env.fileExists (get_config_paths env "trustee").1 = true)
    (hread : env.readFile (get_config_paths env "trustee").1 = .ok cc) :
    load_env_file env (get_config_paths env "trustee").2.1 = .ok emptySecrets
  ∧ load_remote_config env emptySecrets = none
  ∧ standard_resolution env = .resolved cc emptySecrets
  ∧ (∀ merged, ¬env.args[1]? = some "init" →
      merge_config env.toml env.defaultConfig cc = .ok merged →
      mainRun env = .run merged emptySecrets) := by
  have hload : load_env_file env (get_config_paths env "trustee").2.1 = .ok emptySecrets := by
    unfold load_env_file
    simp [hsp]
  have hrem : load_remote_config env emptySecrets = none := by
    unfold load_remote_config
    have : build_storage_config emptySecrets = none := rfl
    rw [this]
  have hres : standard_resolution env = .resolved cc emptySecrets := by
    unfold standard_resolution
    simp only [hcp, hload, hrem, hread, Bool.not_true, Bool.false_and]
    rfl
  refine ⟨hload, hrem, hres, fun merged hni hmerge => ?_⟩
  unfold mainRun
  simp only [hni, if_false, hres, hmerge]

theorem c10_missing_secrets_empty_map_witness :
    load_env_file envNoSecretsW (get_config_paths envNoSecretsW "trustee").2.1
      = .ok emptySecrets
  ∧ standard_resolution envNoSecretsW = .resolved "localcfg" emptySecrets
  ∧ mainRun envNoSecretsW = .run "" emptySecrets :=
  have h := c10_missing_secrets_empty_map envNoSecretsW "localcfg"
    (by decide) (by decide) rfl
  ⟨h.1, h.2.2.1, h.2.2.2 "" (by decide) rfl⟩

/-!
### PathResolver overrides (C6)
-/

/-- C6 is false as stated for the config-file override: when the default
secrets file assigns `TRUSTEE_CONFIG_FILE` the empty string, the config
file name does not remain `trustee.toml` — it becomes the empty string
(the code applies the override unconditionally).  The secrets-file half
does hold: the final name falls back to `.env`. -/
theorem c6_counterexample :
    (get_config_paths envC6 "trustee").2.2.1 = ""
  ∧ ¬(get_config_paths envC6 "trustee").2.2.1 = "trustee.toml"
  ∧ (get_config_paths envC6 "trustee").2.2.2 = ".env" := by decide

/-- C6 amended: after scanning the default secrets file, the secrets file
name falls back to `.env` whenever the accumulated `TRUSTEE_ENV_FILE`
override is empty, but the config file name is whatever the scan
accumulated — a `TRUSTEE_CONFIG_FILE` assignment replaces it even when
its value is the empty string. -/
theorem c6_amended_override_emptiness (env : Env) (agent content : String)
    (hex : env.fileExists
        (pathJoin (pathJoin (env.home.getD ".") ("." ++ agent)) ".env") = true)
    (hrd : env.readFile
        (pathJoin (pathJoin (env.home.getD ".") ("." ++ agent)) ".env") = .ok content) :
    (((strLines content).foldl overrideStep (agent ++ ".toml", "")).2 = "" →
      (get_config_paths env agent).2.2.2 = ".env")
  ∧ (get_config_paths env agent).2.2.1
      = ((strLines content).foldl overrideStep (agent ++ ".toml", "")).1
  ∧ (∀ a b : String, overrideStep (a, b) "TRUSTEE_CONFIG_FILE=" = ("", b)) := by
  refine ⟨fun hempty => ?_, ?_, fun a b => rfl⟩
  · unfold get_config_paths
    simp only [hex, hrd, if_true, hempty]
  · unfold get_config_paths
    simp only [hex, hrd, if_true]

theorem c6_amended_override_emptiness_witness :
    (get_config_paths envC6 "trustee").2.2.2 = ".env"
  ∧ (get_config_paths envC6 "trustee").2.2.1
      = ((strLines "TRUSTEE_CONFIG_FILE=").foldl overrideStep ("trustee" ++ ".toml", "")).1 :=
  have h := c6_amended_override_emptiness envC6 "trustee" "TRUSTEE_CONFIG_FILE="
    (by decide) rfl
  ⟨h.1 (by decide), h.2.1⟩
